import Mathlib

/-!
Verification of the worker pipe-protocol codec, worker lifecycle, pool
dispatch, provisioning and invocation adapter of the caddy-lambda
function-execution middleware (Go sources: worker.go, config.go, plugin.go).

Text is embedded as `List Char` (Go strings over the ASCII subset used by
the protocol).  Each Go function used by a claim is translated into an
executable Lean definition carrying the source name where possible.
-/

set_option autoImplicit false

namespace CaddyLambda

/-- Text of a Go string, embedded as a list of characters. -/
abbrev Str := List Char

/-- Model of Go strings.HasPrefix s pre. -/
def strStartsWith (s pre : Str) : Bool :=
  pre.isPrefixOf s

/-- Model of Go strings.HasSuffix s suf. -/
def strEndsWith (s suf : Str) : Bool :=
  suf.isSuffixOf s

/-- Helper for strings.Contains: does pat occur starting at some position of s. -/
def strContainsAux (pat : Str) : Str → Bool
  | [] => pat.isEmpty
  | c :: cs => pat.isPrefixOf (c :: cs) || strContainsAux pat cs

/-- Model of Go strings.Contains s pat: pat occurs as a contiguous substring of s. -/
def strContains (s pat : Str) : Bool :=
  strContainsAux pat s

/-- Fuel-indexed core of strings.ReplaceAll for a nonempty pattern p :: ps.
Fuel at least the length of the subject makes the fuel-out branch unreachable. -/
def replaceAllCore (p : Char) (ps rep : Str) : Nat → Str → Str
  | 0, s => s
  | _ + 1, [] => []
  | fuel + 1, c :: cs =>
    if (p :: ps).isPrefixOf (c :: cs) then
      rep ++ replaceAllCore p ps rep fuel (cs.drop ps.length)
    else
      c :: replaceAllCore p ps rep fuel cs

/-- Model of Go strings.ReplaceAll s old new: replaces every non-overlapping
occurrence of old, scanning left to right.  For an empty old, Go inserts new
before every character and at the end; no call site in the source uses an
empty pattern. -/
def replaceAll (s old new : Str) : Str :=
  match old with
  | [] => new ++ s.foldr (fun c acc => c :: (new ++ acc)) []
  | p :: ps => replaceAllCore p ps new s.length s

/-- Decimal value of a digit string: some value only when the string is
nonempty and all decimal digits (the digits branch of Go strconv.Atoi). -/
def digitsVal (s : Str) : Option Nat :=
  if s = [] ∨ s.any (fun c => !c.isDigit) then none
  else some (s.foldl (fun a c => a * 10 + (c.toNat - 48)) 0)

/-- Model of Go strconv.Atoi: optional sign followed by at least one decimal
digit (int-range overflow is not modelled; protocol status codes are small). -/
def atoi (s : Str) : Option Int :=
  match s with
  | [] => none
  | c :: rest =>
    if c = '+' then (digitsVal rest).map (fun n => (n : Int))
    else if c = '-' then (digitsVal rest).map (fun n => -(n : Int))
    else (digitsVal (c :: rest)).map (fun n => (n : Int))

/-- Sentinel tag of the status-code line (worker.go). -/
def statusTag : Str := "CMD_STATUS_CODE=".data

/-- Sentinel tag of the start-marker line (worker.go). -/
def startTag : Str := "CMD_OUTPUT_START=".data

/-- Sentinel tag of the body line (worker.go). -/
def bodyTag : Str := "CMD_OUTPUT_BODY=".data

/-- Sentinel tag of the end-marker line (worker.go); also the stop word
passed to readPipe. -/
def endTag : Str := "CMD_OUTPUT_END=".data

/-- Model of worker.go parseStatusCode: remove every occurrence of the
status tag and of ";" and parse the remainder as an integer.  Go returns
(0, err) on failure; only the error bit is consulted by the caller, so the
failure case is none. -/
def parseStatusCode (s : Str) : Option Int :=
  atoi (replaceAll (replaceAll s statusTag []) [';'] [])

/-- One observable event on the worker's stdout channel: a line arriving
within the per-line timeout window, or a silence of at least the timeout
(the time.After branch of readPipe firing).  The end of the list models the
channel closing (stdout reaching end of stream). -/
inductive StreamItem where
  | line (l : Str)
  | gap
deriving DecidableEq, Repr

/-- Model of worker.go readPipe: collect lines from the channel until a line
containing the stop word arrives (that line is kept, no timeout), the
channel closes (no timeout), or the per-line timer fires (timeout). -/
def readPipe (stopWord : Str) : List StreamItem → List Str × Bool
  | [] => ([], false)
  | .gap :: _ => ([], true)
  | .line l :: rest =>
    if strContains l stopWord then ([l], false)
    else
      let r := readPipe stopWord rest
      (l :: r.1, r.2)

/-- Accumulator of the decode loop in worker.handle: the recordingOn flag,
the current statusCode (initialised to 200) and the collected stdoutOutput
lines. -/
structure DecodeSt where
  recordingOn : Bool
  statusCode : Int
  out : List Str
deriving DecidableEq, Repr

/-- One iteration of the decode loop of worker.handle (worker.go lines
189-223), processing a single collected line. -/
def decodeStep (requestID : Str) (st : DecodeSt) (l : Str) : DecodeSt :=
  if st.recordingOn = false then
    if strStartsWith l startTag then
      if strStartsWith l (startTag ++ requestID ++ [';']) then
        { st with recordingOn := true }
      else st
    else st
  else if strStartsWith l statusTag then
    match parseStatusCode l with
    | some code => { st with statusCode := code }
    | none => st
  else if strStartsWith l bodyTag then
    { st with out := st.out ++ [replaceAll l bodyTag []] }
  else if strStartsWith l endTag then
    if strStartsWith l (endTag ++ requestID ++ [';']) then
      { st with recordingOn := false }
    else
      { st with out := st.out ++ ['Y' :: l] }
  else
    { st with out := st.out ++ ['Y' :: l] }

/-- Decode pass of worker.handle over the collected lines. -/
def decodeLines (requestID : Str) (lines : List Str) : DecodeSt :=
  lines.foldl (decodeStep requestID) ⟨false, 200, []⟩

/-- Model of Go strings.Join with separator newline. -/
def strJoin : List Str → Str
  | [] => []
  | [x] => x
  | x :: xs => x ++ '\n' :: strJoin xs

/-- Value universe of the invocation event map (Go map[string]interface values
reaching worker.handle): strings, string lists, and a value whose JSON
serialization fails (the Go values for which json.Marshal errors, such as a
channel). -/
inductive JVal where
  | str (s : Str)
  | strList (vs : List Str)
  | chanV
deriving DecidableEq, Repr

/-- Invocation event map handed to worker.handle (Go map keys are unique). -/
abbrev Event := List (Str × JVal)

/-- Rendering of one event value used when serialization succeeds (string
escaping is not refined; no claim depends on the rendered text). -/
def renderJVal : JVal → Str
  | .str s => '"' :: s ++ ['"']
  | .strList vs => '[' :: strJoin vs ++ [']']
  | .chanV => []

/-- Model of json.Marshal on the event map: fails exactly when some value is
unserializable, otherwise produces a rendering of the map. -/
def jsonMarshal (data : Event) : Option Str :=
  if data.any (fun kv => kv.2 = JVal.chanV) then none
  else some ("\x7b".data ++
    strJoin (data.map (fun kv => '"' :: kv.1 ++ "\": ".data ++ renderJVal kv.2)) ++
    "\x7d".data)

/-- Key of the request identifier inside the event map. -/
def requestIdKey : Str := "request_id".data

/-- Bodies of the fixed HTTP fallback responses used by worker.go/config.go. -/
def badRequestBody : Str := "Bad Request".data

/-- Body text of the 408 fallback (http.StatusText of StatusRequestTimeout). -/
def requestTimeoutBody : Str := "Request Timeout".data

/-- Body text of the 503 fallback (http.StatusText of StatusServiceUnavailable). -/
def serviceUnavailableBody : Str := "Service Unavailable".data

/-- Body text of the 500 fallback (http.StatusText of StatusInternalServerError). -/
def internalServerErrorBody : Str := "Internal Server Error".data

/-- One-time bootstrap statements written to the worker's stdin on first use
(worker.go lines 158-164), in write order. -/
def bootstrapWrites (importedPath : Str) : List Str :=
  ["from ".data ++ importedPath ++ " import *".data, "\n".data,
   "import json".data, "\n".data]

/-- Per-invocation statements written to the worker's stdin (worker.go lines
175-184), in write order. -/
def invocationWrites (encodedData requestID : Str) : List Str :=
  ["resp = handler(".data ++ encodedData ++ ")".data, "\n".data,
   "print(\"CMD_OUTPUT_START=".data ++ requestID ++ ";\")".data, "\n".data,
   "print(f\"CMD_STATUS_CODE=\x7bresp['status_code']\x7d;\")".data, "\n".data,
   "print(f\"CMD_OUTPUT_BODY=\x7bresp['body']\x7d\")".data, "\n".data,
   "print(f\"CMD_OUTPUT_END=".data ++ requestID ++ ";\")".data, "\n".data]

/-- Outcome of one worker.handle call: a returned (status, body, error)
triple, or a runtime panic (the request_id type assertion failing). -/
inductive HandleOutcome where
  | ok (status : Int) (body : Str) (err : Option Str)
  | panicked
deriving DecidableEq, Repr

/-- Result of one worker.handle call: its outcome, everything it wrote to the
worker's stdin (in order), and the worker's importComplete flag afterwards. -/
structure HandleRes where
  outcome : HandleOutcome
  stdinWrites : List Str
  importComplete : Bool
deriving DecidableEq, Repr

/-- Model of worker.handle (worker.go lines 150-231).  Inputs: the
entrypoint module path, the handler name (unused by the Go body: it hardcodes the
name handler), the event map, the worker's importComplete flag, and the
observable stdout stream of the child for this invocation.  Bootstrap
statements are written first; a json.Marshal failure returns 400 with nil
error; the request_id type assertion panics unless the key holds a string;
otherwise the invocation statements are written, readPipe collects output
until the end tag, a timeout yields 408 with nil error, and otherwise the
decoded status and joined body are returned with nil error. -/
def handle (importedPath handlerName : Str) (data : Event)
    (importComplete : Bool) (stream : List StreamItem) : HandleRes :=
  let w0 : List Str := if importComplete then [] else bootstrapWrites importedPath
  match jsonMarshal data with
  | none => ⟨.ok 400 badRequestBody none, w0, true⟩
  | some encodedData =>
    match List.lookup requestIdKey data with
    | some (.str requestID) =>
      let w1 := w0 ++ invocationWrites encodedData requestID
      let r := readPipe endTag stream
      let st := decodeLines requestID r.1
      if r.2 then ⟨.ok 408 requestTimeoutBody none, w1, true⟩
      else ⟨.ok st.statusCode (strJoin st.out) none, w1, true⟩
    | _ => ⟨.panicked, w0, true⟩

/-- Snapshot of one pool worker as read by execWorker: its identifier and
its InUse, Terminated and importComplete flags. -/
structure PoolW where
  ID : Nat
  InUse : Bool
  Terminated : Bool
  importComplete : Bool
deriving DecidableEq, Repr

/-- Inner scan of execWorker (config.go lines 230-239): walk the pool in
order, skipping terminated workers, counting busy ones into the running
availableWorkers accumulator, and stopping at the first free live worker. -/
def scanPass : List PoolW → Nat → PoolW ⊕ Nat
  | [], acc => .inr acc
  | w :: rest, acc =>
    if w.Terminated then scanPass rest acc
    else if w.InUse then scanPass rest (acc + 1)
    else .inl w

/-- Model of FunctionExecutor.execWorker (config.go lines 227-246).  Fuel
counts the passes of the outer retry loop; each recursive step stands for
one 100ms sleep between passes; exhausted fuel (none) is the still-polling
state.  The availableWorkers accumulator is never reset between passes,
exactly as in the source.  streams maps a worker identifier to the stdout
stream its handle call would observe. -/
def execWorkerLoop (importedPath handlerName : Str) (data : Event)
    (workers : List PoolW) (streams : Nat → List StreamItem) :
    Nat → Nat → Option HandleOutcome
  | 0, _ => none
  | fuel + 1, acc =>
    match scanPass workers acc with
    | .inl w => some (handle importedPath handlerName data w.importComplete (streams w.ID)).outcome
    | .inr acc' =>
      if acc' < 1 then some (.ok 503 serviceUnavailableBody none)
      else execWorkerLoop importedPath handlerName data workers streams fuel acc'

/-- Entry point of the execWorker model: the loop starting with a zero
availableWorkers accumulator. -/
def execWorker (importedPath handlerName : Str) (data : Event)
    (workers : List PoolW) (streams : Nat → List StreamItem) (fuel : Nat) :
    Option HandleOutcome :=
  execWorkerLoop importedPath handlerName data workers streams fuel 0

/-- Response written by invoke after dispatch (config.go lines 215-223): a
non-nil dispatch error becomes 500 Internal Server Error, otherwise the
returned status and body are written verbatim. -/
def invokeDispatchWrite (status : Int) (body : Str) (err : Option Str) : Int × Str :=
  match err with
  | some _ => (500, internalServerErrorBody)
  | none => (status, body)

/-- Header key excluded from the event header map. -/
def cookieKey : Str := "Cookie".data

/-- Second header key excluded from the event header map. -/
def setCookieKey : Str := "Set-Cookie".data

/-- Collapse rule of invoke for a multi-valued entry (config.go): exactly one
value becomes that value as a scalar, anything else keeps the whole list. -/
def collapseValues (v : List Str) : JVal :=
  match v with
  | [x] => .str x
  | _ => .strList v

/-- Header map of the invocation event built by invoke (config.go lines
183-195): Cookie and Set-Cookie entries are skipped, every other entry is
collapsed.  Go maps are modelled pointwise as partial functions from key to
value list. -/
def reqHeaders (header : Str → Option (List Str)) (k : Str) : Option JVal :=
  if k = cookieKey ∨ k = setCookieKey then none
  else (header k).map collapseValues

/-- Query-parameter map of the invocation event built by invoke (config.go
lines 172-180): every entry is collapsed. -/
def queryParams (queryValues : Str → Option (List Str)) (k : Str) : Option JVal :=
  (queryValues k).map collapseValues

/-- Process handle of a worker's child, carrying the outcomes the operating
system would report: the kill-signal error, if any, and the wait error, if
any (a process killed by the kill signal waits with the error text
signal: killed). -/
structure ProcHandle where
  killErr : Option Str
  waitErr : Option Str
deriving DecidableEq, Repr

/-- Command handle of a worker (exec.Cmd), whose Process field may be nil. -/
structure CmdHandle where
  process : Option ProcHandle
deriving DecidableEq, Repr

/-- Worker state read and written by terminate: the Terminated flag and the
command handle, which may itself be nil. -/
structure TermWorker where
  Terminated : Bool
  Cmd : Option CmdHandle
deriving DecidableEq, Repr

/-- Wait error text that terminate normalizes to success. -/
def killedMsg : Str := "signal: killed".data

/-- Model of worker.terminate (worker.go lines 87-108): the Terminated flag
is set first, then the nil checks may return early, then the process is
killed and waited on, with a signal-killed wait outcome treated as nil. -/
def terminate (w : TermWorker) : TermWorker × Option Str :=
  let w' := { w with Terminated := true }
  match w.Cmd with
  | none => (w', none)
  | some cmd =>
    match cmd.process with
    | none => (w', none)
    | some p =>
      match p.killErr with
      | some e => (w', some e)
      | none =>
        match p.waitErr with
        | none => (w', none)
        | some e => if e = killedMsg then (w', none) else (w', some e)

/-- Configuration and state of the FunctionExecutor relevant to provisioning
(plugin.go). -/
structure FunctionExecutor where
  Name : Str
  EntrypointPath : Str
  EntrypointHandler : Str
  PythonExecutable : Str
  MaxWorkersCount : Nat
  WorkerTimeout : Int
  URIFilter : Str
  entrypointImport : Str
  workers : List PoolW
deriving DecidableEq, Repr

/-- Entrypoint import identifier computation of Provision (plugin.go lines
83-88): replace every path separator with a dot, then strip a trailing
source-file suffix via the Go slice s[0 : len s - 3]. -/
def computeEntrypointImport (p : Str) : Str :=
  let q := replaceAll p "/".data ".".data
  if strEndsWith q ".py".data then q.take (q.length - 3) else q

/-- Model of FunctionExecutor.Provision (plugin.go lines 70-110).  External
effects are oracles: filterOk is whether the POSIX regex of a nonempty
URIFilter compiles, spawnOk is whether newWorker starts the child process.
A single worker with identifier 0 is appended, whatever MaxWorkersCount
holds. -/
def Provision (fex : FunctionExecutor) (filterOk spawnOk : Bool) :
    Option FunctionExecutor :=
  if fex.URIFilter ≠ [] ∧ filterOk = false then none
  else
    let imp := if fex.entrypointImport = [] then computeEntrypointImport fex.EntrypointPath
               else fex.entrypointImport
    let wt : Int := if fex.WorkerTimeout < 1 then 60 else fex.WorkerTimeout
    if spawnOk = false then none
    else some { fex with
                entrypointImport := imp,
                WorkerTimeout := wt,
                workers := fex.workers ++
                  [{ ID := 0, InUse := false, Terminated := false, importComplete := false }] }

/-- Modelled from the spec: the import-style dotted identifier described in
the configuration schema, obtained by replacing path separators with dots
(characterwise, since both are single characters) and removing a trailing
source-file suffix when present. -/
def specImportIdent (p : Str) : Str :=
  let q := p.map (fun c => if c = '/' then '.' else c)
  if strEndsWith q ".py".data then q.dropLast.dropLast.dropLast else q

/-- Lines of a stream arriving before its first silence gap (hence within
the per-line timeout window each time). -/
def linesBeforeGap : List StreamItem → List Str
  | [] => []
  | .gap :: _ => []
  | .line l :: rest => l :: linesBeforeGap rest

/-- Modelled from the spec: the premise of the timeout property, that the
worker output produces an end marker line for the given request identifier
within the configured timeout. -/
def producesEndMarkerFor (requestID : Str) (stream : List StreamItem) : Bool :=
  (linesBeforeGap stream).any (fun l => strContains l (endTag ++ requestID ++ [';']))

/-! Helper lemmas about the string primitives. -/

lemma isPrefixOf_append_self (l t : Str) : l.isPrefixOf (l ++ t) = true := by
  induction l with
  | nil => simp [List.isPrefixOf]
  | cons c cs ih => simp [List.isPrefixOf, ih]

lemma isPrefixOf_self (l : Str) : l.isPrefixOf l = true := by
  have h := isPrefixOf_append_self l []
  simpa using h

lemma strStartsWith_self (l : Str) : strStartsWith l l = true := by
  simp [strStartsWith, isPrefixOf_self]

lemma strContains_nil_false (c : Char) (pat : Str) :
    strContains [] (c :: pat) = false := rfl

lemma strContains_cons (c : Char) (cs pat : Str) :
    strContains (c :: cs) pat = (pat.isPrefixOf (c :: cs) || strContains cs pat) := rfl

lemma strContains_false_of_not_mem (s : Str) (c : Char) (pat : Str) (h : c ∉ s) :
    strContains s (c :: pat) = false := by
  induction s with
  | nil => rfl
  | cons d ds ih =>
    rw [strContains_cons]
    have hcd : c ≠ d := by
      intro he; exact h (he ▸ List.mem_cons_self d ds)
    have h1 : (c :: pat).isPrefixOf (d :: ds) = false := by
      simp [List.isPrefixOf, hcd]
    rw [h1]
    have h2 : c ∉ ds := fun hm => h (List.mem_cons_of_mem d hm)
    simp [ih h2]

lemma replaceAllCore_fuel_inv (p : Char) (ps rep : Str) :
    ∀ fuel fuel' s, s.length ≤ fuel → s.length ≤ fuel' →
      replaceAllCore p ps rep fuel s = replaceAllCore p ps rep fuel' s := by
  intro fuel
  induction fuel with
  | zero =>
    intro fuel' s hs _
    have hsnil : s = [] := by
      cases s with
      | nil => rfl
      | cons c cs => simp at hs
    subst hsnil
    cases fuel' <;> rfl
  | succ n ih =>
    intro fuel' s hs hs'
    cases s with
    | nil => cases fuel' <;> rfl
    | cons c cs =>
      cases fuel' with
      | zero => simp at hs'
      | succ m =>
        simp only [replaceAllCore]
        by_cases hp : (p :: ps).isPrefixOf (c :: cs) = true
        · rw [if_pos hp, if_pos hp]
          have hd : (cs.drop ps.length).length ≤ cs.length := by
            simp [List.length_drop]
          have hn : cs.length ≤ n := by simpa using hs
          have hm : cs.length ≤ m := by simpa using hs'
          rw [ih m (cs.drop ps.length) (le_trans hd hn) (le_trans hd hm)]
        · rw [if_neg hp, if_neg hp]
          have hn : cs.length ≤ n := by simpa using hs
          have hm : cs.length ≤ m := by simpa using hs'
          rw [ih m cs hn hm]

lemma replaceAllCore_id (p : Char) (ps rep : Str) :
    ∀ fuel s, s.length ≤ fuel → strContains s (p :: ps) = false →
      replaceAllCore p ps rep fuel s = s := by
  intro fuel
  induction fuel with
  | zero =>
    intro s hs _
    cases s with
    | nil => rfl
    | cons c cs => simp at hs
  | succ n ih =>
    intro s hs hc
    cases s with
    | nil => rfl
    | cons c cs =>
      rw [strContains_cons] at hc
      have h1 : (p :: ps).isPrefixOf (c :: cs) = false := by
        cases h : (p :: ps).isPrefixOf (c :: cs) <;> simp [h] at hc ⊢
      have h2 : strContains cs (p :: ps) = false := by
        cases h : strContains cs (p :: ps) <;> simp [h1, h] at hc ⊢
      simp only [replaceAllCore, h1]
      simp only [Bool.false_eq_true, if_false]
      have hn : cs.length ≤ n := by simpa using hs
      rw [ih cs hn h2]

lemma replaceAll_id (s : Str) (p : Char) (ps rep : Str)
    (hc : strContains s (p :: ps) = false) : replaceAll s (p :: ps) rep = s :=
  replaceAllCore_id p ps rep s.length s le_rfl hc

lemma replaceAll_strip (s : Str) (p : Char) (ps rep : Str) :
    replaceAll ((p :: ps) ++ s) (p :: ps) rep = rep ++ replaceAll s (p :: ps) rep := by
  show replaceAllCore p ps rep ((p :: ps) ++ s).length ((p :: ps) ++ s) =
    rep ++ replaceAllCore p ps rep s.length s
  have hl : ((p :: ps) ++ s).length = (ps.length + s.length) + 1 := by
    simp [List.length_append]
  rw [hl]
  have hp : (p :: ps).isPrefixOf (p :: (ps ++ s)) = true := by
    have h := isPrefixOf_append_self (p :: ps) s
    simpa using h
  show (if (p :: ps).isPrefixOf (p :: (ps ++ s)) = true then
      rep ++ replaceAllCore p ps rep (ps.length + s.length) ((ps ++ s).drop ps.length)
    else _) = _
  rw [if_pos hp]
  have hdrop : (ps ++ s).drop ps.length = s := List.drop_left ps s
  rw [hdrop]
  rw [replaceAllCore_fuel_inv p ps rep (ps.length + s.length) s.length s (by omega) le_rfl]

lemma replaceAllCore_filter (c : Char) :
    ∀ fuel s, s.length ≤ fuel →
      replaceAllCore c [] [] fuel s = s.filter (fun d => !(d == c)) := by
  intro fuel
  induction fuel with
  | zero =>
    intro s hs
    cases s with
    | nil => rfl
    | cons d ds => simp at hs
  | succ n ih =>
    intro s hs
    cases s with
    | nil => rfl
    | cons d ds =>
      have hn : ds.length ≤ n := by simpa using hs
      by_cases hcd : c = d
      · subst hcd
        have hp : ([c] : Str).isPrefixOf (c :: ds) = true := by
          simp [List.isPrefixOf]
        simp only [replaceAllCore, hp, if_pos]
        simp [ih ds hn]
      · have hp : ([c] : Str).isPrefixOf (c :: ds) = false ∨ True := Or.inr trivial
        have hp2 : ([c] : Str).isPrefixOf (d :: ds) = false := by
          simp [List.isPrefixOf, hcd]
        simp only [replaceAllCore, hp2]
        simp only [Bool.false_eq_true, if_false]
        have hne : (d == c) = false := by
          simp [Ne.symm hcd]
        simp [ih ds hn, hne]

lemma replaceAll_filter (s : Str) (c : Char) :
    replaceAll s [c] [] = s.filter (fun d => !(d == c)) :=
  replaceAllCore_filter c s.length s le_rfl

lemma replaceAllCore_map (c r : Char) :
    ∀ fuel s, s.length ≤ fuel →
      replaceAllCore c [] [r] fuel s = s.map (fun d => if d = c then r else d) := by
  intro fuel
  induction fuel with
  | zero =>
    intro s hs
    cases s with
    | nil => rfl
    | cons d ds => simp at hs
  | succ n ih =>
    intro s hs
    cases s with
    | nil => rfl
    | cons d ds =>
      have hn : ds.length ≤ n := by simpa using hs
      by_cases hcd : c = d
      · subst hcd
        have hp : ([c] : Str).isPrefixOf (c :: ds) = true := by
          simp [List.isPrefixOf]
        simp only [replaceAllCore, hp, if_pos]
        simp [ih ds hn]
      · have hp2 : ([c] : Str).isPrefixOf (d :: ds) = false := by
          simp [List.isPrefixOf, hcd]
        simp only [replaceAllCore, hp2]
        simp only [Bool.false_eq_true, if_false]
        simp [ih ds hn, Ne.symm hcd]

lemma replaceAll_map (s : Str) (c r : Char) :
    replaceAll s [c] [r] = s.map (fun d => if d = c then r else d) :=
  replaceAllCore_map c r s.length s le_rfl

lemma digitsVal_all_digits (s : Str) (n : Nat) (h : digitsVal s = some n) :
    ∀ c ∈ s, c.isDigit = true := by
  intro c hc
  have h' := h
  simp [digitsVal] at h'
  exact h'.1.2 c hc

lemma digitsVal_ne_nil (s : Str) (n : Nat) (h : digitsVal s = some n) : s ≠ [] := by
  intro he
  subst he
  simp [digitsVal] at h

lemma atoi_of_digitsVal (s : Str) (n : Nat) (h : digitsVal s = some n) :
    atoi s = some (n : Int) := by
  cases s with
  | nil => exact absurd rfl (digitsVal_ne_nil [] n h)
  | cons c cs =>
    have hd : c.isDigit = true :=
      digitsVal_all_digits (c :: cs) n h c (List.mem_cons_self c cs)
    have hplus : c ≠ '+' := by
      intro he; subst he; simp [Char.isDigit] at hd
    have hminus : c ≠ '-' := by
      intro he; subst he; simp [Char.isDigit] at hd
    simp [atoi, hplus, hminus, h]

/-! Prefix facts between the fixed sentinel tags; each reduces by
computation on the concrete tag characters, whatever the tail. -/

lemma sw_statusTag_statusTag (x : Str) : strStartsWith (statusTag ++ x) statusTag = true := by
  simp [strStartsWith, isPrefixOf_append_self]

lemma sw_startTag_startTag (x : Str) : strStartsWith (startTag ++ x) startTag = true := by
  simp [strStartsWith, isPrefixOf_append_self]

lemma sw_endTag_endTag (x : Str) : strStartsWith (endTag ++ x) endTag = true := by
  simp [strStartsWith, isPrefixOf_append_self]

lemma sw_bodyTag_bodyTag (x : Str) : strStartsWith (bodyTag ++ x) bodyTag = true := by
  simp [strStartsWith, isPrefixOf_append_self]

lemma sw_bodyTag_statusTag (x : Str) : strStartsWith (bodyTag ++ x) statusTag = false := rfl

lemma sw_endTag_statusTag (x : Str) : strStartsWith (endTag ++ x) statusTag = false := rfl

lemma sw_endTag_bodyTag (x : Str) : strStartsWith (endTag ++ x) bodyTag = false := rfl

lemma strContains_append_self (p : Char) (ps x : Str) :
    strContains ((p :: ps) ++ x) (p :: ps) = true := by
  rw [List.cons_append, strContains_cons]
  have h : (p :: ps).isPrefixOf (p :: (ps ++ x)) = true := by
    have h2 := isPrefixOf_append_self (p :: ps) x
    simpa using h2
  simp [h]

lemma sc_endTag_self (x : Str) : strContains (endTag ++ x) endTag = true := by
  have he : endTag = 'C' :: "MD_OUTPUT_END=".data := rfl
  rw [he]
  exact strContains_append_self 'C' "MD_OUTPUT_END=".data x

/-! Behaviour of readPipe on structured streams. -/

lemma readPipe_clean_line (stop l : Str) (rest : List StreamItem)
    (h : strContains l stop = false) :
    readPipe stop (.line l :: rest) =
      (l :: (readPipe stop rest).1, (readPipe stop rest).2) := by
  simp [readPipe, h]

lemma readPipe_stop_line (stop l : Str) (rest : List StreamItem)
    (h : strContains l stop = true) :
    readPipe stop (.line l :: rest) = ([l], false) := by
  simp [readPipe, h]

lemma readPipe_gap (stop : Str) (rest : List StreamItem) :
    readPipe stop (.gap :: rest) = ([], true) := rfl

lemma readPipe_clean_front (stop : Str) (junk : List Str) (rest : List StreamItem)
    (h : ∀ l ∈ junk, strContains l stop = false) :
    readPipe stop (junk.map .line ++ rest) =
      (junk ++ (readPipe stop rest).1, (readPipe stop rest).2) := by
  induction junk with
  | nil => simp
  | cons l ls ih =>
    have hl : strContains l stop = false := h l (List.mem_cons_self l ls)
    have hls : ∀ x ∈ ls, strContains x stop = false :=
      fun x hx => h x (List.mem_cons_of_mem l hx)
    simp only [List.map_cons, List.cons_append]
    rw [readPipe_clean_line stop l (List.map StreamItem.line ls ++ rest) hl]
    rw [ih hls]

/-! Behaviour of the decode pass. -/

lemma decodeStep_skip (requestID : Str) (st : DecodeSt) (l : Str)
    (hrec : st.recordingOn = false)
    (h : strStartsWith l (startTag ++ requestID ++ [';']) = false) :
    decodeStep requestID st l = st := by
  simp only [List.append_assoc] at h
  cases ho : strStartsWith l startTag <;> simp [decodeStep, hrec, ho, h]

lemma decodeLines_aux_skip (requestID : Str) (st : DecodeSt) (junk : List Str)
    (hrec : st.recordingOn = false)
    (h : ∀ l ∈ junk, strStartsWith l (startTag ++ requestID ++ [';']) = false) :
    junk.foldl (decodeStep requestID) st = st := by
  induction junk with
  | nil => rfl
  | cons l ls ih =>
    have h1 : decodeStep requestID st l = st :=
      decodeStep_skip requestID st l hrec (h l (List.mem_cons_self l ls))
    simp only [List.foldl_cons, h1]
    exact ih (fun x hx => h x (List.mem_cons_of_mem l hx))

lemma parseStatusCode_wellformed (ds : Str) (code : Nat)
    (hds : digitsVal ds = some code) :
    parseStatusCode (statusTag ++ ds ++ [';']) = some (code : Int) := by
  have hdig : ∀ c ∈ ds, c.isDigit = true := digitsVal_all_digits ds code hds
  have hC : 'C' ∉ ds ++ [';'] := by
    intro hmem
    rcases List.mem_append.mp hmem with hm | hm
    · have := hdig 'C' hm
      simp [Char.isDigit] at this
    · simp at hm
  have hnc : strContains (ds ++ [';']) statusTag = false := by
    have hst : statusTag = 'C' :: "MD_STATUS_CODE=".data := rfl
    rw [hst]
    exact strContains_false_of_not_mem (ds ++ [';']) 'C' "MD_STATUS_CODE=".data hC
  have h1 : replaceAll (statusTag ++ ds ++ [';']) statusTag [] = ds ++ [';'] := by
    have hst : statusTag = 'C' :: "MD_STATUS_CODE=".data := rfl
    rw [List.append_assoc]
    rw [hst] at hnc ⊢
    rw [replaceAll_strip (ds ++ [';']) 'C' "MD_STATUS_CODE=".data []]
    rw [replaceAll_id (ds ++ [';']) 'C' "MD_STATUS_CODE=".data [] hnc]
    rfl
  have h2 : replaceAll (ds ++ [';']) [';'] [] = ds := by
    rw [replaceAll_filter (ds ++ [';']) ';']
    rw [List.filter_append]
    have hf1 : ds.filter (fun d => !(d == ';')) = ds := by
      refine List.filter_eq_self.mpr ?_
      intro a ha
      have := hdig a ha
      have hne : a ≠ ';' := by
        intro he
        subst he
        simp [Char.isDigit] at this
      simp [hne]
    have hf2 : ([';'] : Str).filter (fun d => !(d == ';')) = [] := rfl
    rw [hf1, hf2, List.append_nil]
  rw [parseStatusCode, h1, h2]
  exact atoi_of_digitsVal ds code hds

/-! Claim theorems. -/

/-- C1 (amended): for every event carrying request identifier rid
(serializable, so the marshal step succeeds) and every worker-output stream
consisting of unrelated lines that are free of the end-marker tag and of the
rid start marker, then a start marker for rid, a well-formed status line
carrying the digits of code, a well-formed body line carrying body (free of
the tags, so the prefix strip keeps it verbatim), and an end marker for rid,
worker.handle returns exactly code and exactly body, with nil error; those
unrelated lines are discarded.  The end-tag-free condition on the unrelated
lines is necessary: readPipe stops at the generic end tag, see the
counterexample below. -/
theorem claim_C1_decode_roundtrip
    (importedPath handlerName : Str) (data : Event) (importComplete : Bool)
    (requestID encodedData : Str)
    (junk : List Str) (ds body : Str) (code : Nat) (rest : List StreamItem)
    (hmarshal : jsonMarshal data = some encodedData)
    (hreq : List.lookup requestIdKey data = some (.str requestID))
    (hds : digitsVal ds = some code)
    (hbody : strContains body bodyTag = false)
    (hjunk_end : ∀ l ∈ junk, strContains l endTag = false)
    (hjunk_start : ∀ l ∈ junk, strStartsWith l (startTag ++ (requestID ++ [';'])) = false)
    (hstart_clean : strContains (startTag ++ (requestID ++ [';'])) endTag = false)
    (hstatus_clean : strContains (statusTag ++ (ds ++ [';'])) endTag = false)
    (hbody_clean : strContains (bodyTag ++ body) endTag = false) :
    (handle importedPath handlerName data importComplete
      (junk.map StreamItem.line ++
        (.line (startTag ++ (requestID ++ [';'])) ::
         .line (statusTag ++ (ds ++ [';'])) ::
         .line (bodyTag ++ body) ::
         .line (endTag ++ (requestID ++ [';'])) :: rest))).outcome
      = .ok (code : Int) body none := by
  have hstop : strContains (endTag ++ (requestID ++ [';'])) endTag = true :=
    sc_endTag_self (requestID ++ [';'])
  have hread : readPipe endTag
      (junk.map StreamItem.line ++
        (.line (startTag ++ (requestID ++ [';'])) ::
         .line (statusTag ++ (ds ++ [';'])) ::
         .line (bodyTag ++ body) ::
         .line (endTag ++ (requestID ++ [';'])) :: rest)) =
      (junk ++ [startTag ++ (requestID ++ [';']), statusTag ++ (ds ++ [';']),
                bodyTag ++ body, endTag ++ (requestID ++ [';'])], false) := by
    rw [readPipe_clean_front endTag junk _ hjunk_end]
    rw [readPipe_clean_line endTag _ _ hstart_clean]
    rw [readPipe_clean_line endTag _ _ hstatus_clean]
    rw [readPipe_clean_line endTag _ _ hbody_clean]
    rw [readPipe_stop_line endTag _ rest hstop]
  have hstep1 : decodeStep requestID ⟨false, 200, []⟩ (startTag ++ (requestID ++ [';'])) =
      ⟨true, 200, []⟩ := by
    have hA : strStartsWith (startTag ++ (requestID ++ [';'])) startTag = true :=
      sw_startTag_startTag (requestID ++ [';'])
    have hB : strStartsWith (startTag ++ (requestID ++ [';']))
        (startTag ++ (requestID ++ [';'])) = true := strStartsWith_self _
    simp [decodeStep, List.append_assoc, hA, hB]
  have hstep2 : decodeStep requestID ⟨true, 200, []⟩ (statusTag ++ (ds ++ [';'])) =
      ⟨true, (code : Int), []⟩ := by
    have hC : strStartsWith (statusTag ++ (ds ++ [';'])) statusTag = true :=
      sw_statusTag_statusTag (ds ++ [';'])
    have hD : parseStatusCode (statusTag ++ (ds ++ [';'])) = some (code : Int) := by
      have h := parseStatusCode_wellformed ds code hds
      rw [List.append_assoc] at h
      exact h
    simp [decodeStep, List.append_assoc, hC, hD]
  have hstep3 : decodeStep requestID ⟨true, (code : Int), []⟩ (bodyTag ++ body) =
      ⟨true, (code : Int), [body]⟩ := by
    have hE : strStartsWith (bodyTag ++ body) statusTag = false :=
      sw_bodyTag_statusTag body
    have hF : strStartsWith (bodyTag ++ body) bodyTag = true :=
      sw_bodyTag_bodyTag body
    have hG : replaceAll (bodyTag ++ body) bodyTag [] = body := by
      have hbt : bodyTag = 'C' :: "MD_OUTPUT_BODY=".data := rfl
      rw [hbt]
      rw [replaceAll_strip body 'C' "MD_OUTPUT_BODY=".data []]
      rw [replaceAll_id body 'C' "MD_OUTPUT_BODY=".data [] (by rw [← hbt]; exact hbody)]
      rfl
    simp [decodeStep, List.append_assoc, hE, hF, hG]
  have hstep4 : decodeStep requestID ⟨true, (code : Int), [body]⟩
      (endTag ++ (requestID ++ [';'])) = ⟨false, (code : Int), [body]⟩ := by
    have hH : strStartsWith (endTag ++ (requestID ++ [';'])) statusTag = false :=
      sw_endTag_statusTag (requestID ++ [';'])
    have hI : strStartsWith (endTag ++ (requestID ++ [';'])) bodyTag = false :=
      sw_endTag_bodyTag (requestID ++ [';'])
    have hJ : strStartsWith (endTag ++ (requestID ++ [';'])) endTag = true :=
      sw_endTag_endTag (requestID ++ [';'])
    have hK : strStartsWith (endTag ++ (requestID ++ [';']))
        (endTag ++ (requestID ++ [';'])) = true := strStartsWith_self _
    simp [decodeStep, List.append_assoc, hH, hI, hJ, hK]
  have hfold : decodeLines requestID
      (junk ++ [startTag ++ (requestID ++ [';']), statusTag ++ (ds ++ [';']),
                bodyTag ++ body, endTag ++ (requestID ++ [';'])]) =
      ⟨false, (code : Int), [body]⟩ := by
    unfold decodeLines
    rw [List.foldl_append]
    rw [decodeLines_aux_skip requestID ⟨false, 200, []⟩ junk rfl
      (fun l hl => by rw [List.append_assoc]; exact hjunk_start l hl)]
    simp only [List.foldl_cons, List.foldl_nil]
    rw [hstep1, hstep2, hstep3, hstep4]
  simp only [handle, hmarshal, hreq, hread, hfold]
  simp [strJoin]

/-- Witness for C1 at a concrete invocation: request identifier r1, one
unrelated noise line, status digits 201, body hello. -/
theorem claim_C1_decode_roundtrip_witness :
    digitsVal ("201".data) = some 201 ∧
    (handle ("app.index".data) ("handler".data)
      [(requestIdKey, JVal.str ("r1".data))] false
      ((["noise".data].map StreamItem.line) ++
        (.line (startTag ++ (("r1".data) ++ [';'])) ::
         .line (statusTag ++ (("201".data) ++ [';'])) ::
         .line (bodyTag ++ "hello".data) ::
         .line (endTag ++ (("r1".data) ++ [';'])) :: []))).outcome
      = .ok (201 : Int) ("hello".data) none := by
  refine ⟨by decide, ?_⟩
  exact claim_C1_decode_roundtrip ("app.index".data) ("handler".data)
    [(requestIdKey, JVal.str ("r1".data))] false ("r1".data)
    ("\x7b\"request_id\": \"r1\"\x7d".data)
    ["noise".data] ("201".data) ("hello".data) 201 []
    (by decide) (by decide) (by decide) (by decide)
    (by decide) (by decide) (by decide) (by decide) (by decide)

/-- Counterexample to C1 as stated: one stale end-marker line from a
previous invocation r0 — an unrelated line appearing before the r1 start
marker, which the claim says is discarded, and not a start marker for r1 —
followed by a fully well-formed r1 quadruple with embedded status 201 and
body hello.  readPipe stops at the stale line (its stop word is the generic
end tag), so handle returns the default 200 with an empty body instead of
the embedded status and body. -/
theorem claim_C1_counterexample :
    strStartsWith ("CMD_OUTPUT_END=r0;".data) (startTag ++ (("r1".data) ++ [';'])) = false ∧
    (handle ("app.index".data) ("handler".data)
      [(requestIdKey, JVal.str ("r1".data))] false
      (["CMD_OUTPUT_END=r0;".data].map StreamItem.line ++
        (.line (startTag ++ (("r1".data) ++ [';'])) ::
         .line (statusTag ++ (("201".data) ++ [';'])) ::
         .line (bodyTag ++ "hello".data) ::
         .line (endTag ++ (("r1".data) ++ [';'])) :: []))).outcome
      = .ok 200 [] none ∧
    HandleOutcome.ok 200 [] none ≠ .ok 201 ("hello".data) none := by
  exact ⟨by decide, by decide, by decide⟩

/-- C2 (amended): for every worker-output stream whose lines never contain
the generic end-marker tag before a silence of the configured timeout
occurs, worker.handle returns status 408 with body Request Timeout and nil
error — never a partial result assembled from the lines collected so far. -/
theorem claim_C2_timeout_outcome
    (importedPath handlerName : Str) (data : Event) (importComplete : Bool)
    (requestID encodedData : Str) (pre : List Str) (rest : List StreamItem)
    (hmarshal : jsonMarshal data = some encodedData)
    (hreq : List.lookup requestIdKey data = some (.str requestID))
    (hpre : ∀ l ∈ pre, strContains l endTag = false) :
    (handle importedPath handlerName data importComplete
      (pre.map StreamItem.line ++ .gap :: rest)).outcome
      = .ok 408 requestTimeoutBody none := by
  have hread : readPipe endTag (pre.map StreamItem.line ++ .gap :: rest) = (pre, true) := by
    rw [readPipe_clean_front endTag pre (.gap :: rest) hpre]
    rw [readPipe_gap]
    simp
  simp [handle, hmarshal, hreq, hread]

/-- Witness for C2 at a concrete invocation: the stream delivers a start
marker and a body line for rid, then goes silent; handle still answers 408
Request Timeout, not the partial body. -/
theorem claim_C2_timeout_outcome_witness :
    (∀ l ∈ [startTag ++ (("r1".data) ++ [';']), bodyTag ++ "part".data],
      strContains l endTag = false) ∧
    (handle ("app.index".data) ("handler".data)
      [(requestIdKey, JVal.str ("r1".data))] false
      ([startTag ++ (("r1".data) ++ [';']), bodyTag ++ "part".data].map StreamItem.line ++
        .gap :: [])).outcome
      = .ok 408 requestTimeoutBody none := by
  refine ⟨by decide, ?_⟩
  exact claim_C2_timeout_outcome ("app.index".data) ("handler".data)
    [(requestIdKey, JVal.str ("r1".data))] false ("r1".data)
    ("\x7b\"request_id\": \"r1\"\x7d".data)
    [startTag ++ (("r1".data) ++ [';']), bodyTag ++ "part".data] []
    (by decide) (by decide) (by decide)

/-- Counterexample to C2 as stated: a stream whose only line is an end
marker for a different request identifier never produces an end marker for
r1 within the timeout, yet handle returns 200 with an empty body (a result
decoded from the collected lines), not the 408 timeout outcome. -/
theorem claim_C2_counterexample :
    producesEndMarkerFor ("r1".data)
      [.line (endTag ++ (("r2".data) ++ [';'])), .gap] = false ∧
    (handle ("app.index".data) ("handler".data)
      [(requestIdKey, JVal.str ("r1".data))] false
      [.line (endTag ++ (("r2".data) ++ [';'])), .gap]).outcome
      = .ok 200 [] none ∧
    HandleOutcome.ok 200 [] none ≠ .ok 408 requestTimeoutBody none := by
  exact ⟨by decide, by decide, by decide⟩

/-- C3 (amended): for every event whose JSON serialization fails,
worker.handle recovers the failure itself, returning status 400 with body
Bad Request and nil error, and the adapter therefore writes that 400
response verbatim rather than entering its 500 branch. -/
theorem claim_C3_marshal_soft_400
    (importedPath handlerName : Str) (data : Event) (importComplete : Bool)
    (stream : List StreamItem)
    (hfail : jsonMarshal data = none) :
    (handle importedPath handlerName data importComplete stream).outcome
      = .ok 400 badRequestBody none ∧
    invokeDispatchWrite 400 badRequestBody none = (400, badRequestBody) := by
  constructor
  · simp [handle, hfail]
  · rfl

/-- Witness for C3 at a concrete event containing an unserializable value. -/
theorem claim_C3_marshal_soft_400_witness :
    jsonMarshal [(requestIdKey, JVal.str ("r1".data)), ("x".data, JVal.chanV)] = none ∧
    ((handle ("app.index".data) ("handler".data)
      [(requestIdKey, JVal.str ("r1".data)), ("x".data, JVal.chanV)] false []).outcome
      = .ok 400 badRequestBody none ∧
    invokeDispatchWrite 400 badRequestBody none = (400, badRequestBody)) := by
  refine ⟨by decide, ?_⟩
  exact claim_C3_marshal_soft_400 ("app.index".data) ("handler".data)
    [(requestIdKey, JVal.str ("r1".data)), ("x".data, JVal.chanV)] false [] (by decide)

/-- Counterexample to C3 as stated: at a concrete event whose serialization
fails, handle returns with a nil error (so nothing propagates to the
caller as a hard execution error) and the adapter's write is the 400
response, not the 500 Internal Server Error the claim requires. -/
theorem claim_C3_counterexample :
    jsonMarshal [(requestIdKey, JVal.str ("r1".data)), ("x".data, JVal.chanV)] = none ∧
    (handle ("app.index".data) ("handler".data)
      [(requestIdKey, JVal.str ("r1".data)), ("x".data, JVal.chanV)] false []).outcome
      = .ok 400 badRequestBody none ∧
    invokeDispatchWrite 400 badRequestBody none ≠ (500, internalServerErrorBody) := by
  exact ⟨by decide, by decide, by decide⟩

lemma scanPass_all_terminated (ws : List PoolW)
    (h : ∀ w ∈ ws, w.Terminated = true) : ∀ acc, scanPass ws acc = .inr acc := by
  induction ws with
  | nil => intro acc; rfl
  | cons w rest ih =>
    intro acc
    have hw : w.Terminated = true := h w (List.mem_cons_self w rest)
    have hrest : ∀ x ∈ rest, x.Terminated = true :=
      fun x hx => h x (List.mem_cons_of_mem w hx)
    simp [scanPass, hw, ih hrest acc]

/-- C4: for every pool in which every worker has its terminated flag set,
execWorker returns status 503 with body Service Unavailable and nil error
after the very first scan, for any amount of polling fuel — the 100ms
busy-poll loop is never entered. -/
theorem claim_C4_all_terminated_503
    (importedPath handlerName : Str) (data : Event) (workers : List PoolW)
    (streams : Nat → List StreamItem) (fuel : Nat)
    (hterm : ∀ w ∈ workers, w.Terminated = true) :
    execWorker importedPath handlerName data workers streams (fuel + 1) =
      some (.ok 503 serviceUnavailableBody none) := by
  have hscan := scanPass_all_terminated workers hterm 0
  simp [execWorker, execWorkerLoop, hscan]

/-- Witness for C4 on a concrete pool of two terminated workers with one
unit of fuel (a single scan). -/
theorem claim_C4_all_terminated_503_witness :
    (∀ w ∈ [({ ID := 0, InUse := false, Terminated := true, importComplete := true } : PoolW),
            { ID := 1, InUse := true, Terminated := true, importComplete := false }],
      w.Terminated = true) ∧
    execWorker ("app.index".data) ("handler".data)
      [(requestIdKey, JVal.str ("r1".data))]
      [{ ID := 0, InUse := false, Terminated := true, importComplete := true },
       { ID := 1, InUse := true, Terminated := true, importComplete := false }]
      (fun _ => []) 1 = some (.ok 503 serviceUnavailableBody none) := by
  refine ⟨by decide, ?_⟩
  exact claim_C4_all_terminated_503 ("app.index".data) ("handler".data)
    [(requestIdKey, JVal.str ("r1".data))]
    [{ ID := 0, InUse := false, Terminated := true, importComplete := true },
     { ID := 1, InUse := true, Terminated := true, importComplete := false }]
    (fun _ => []) 0 (by decide)

lemma collapseValues_singleton (v : Str) : collapseValues [v] = .str v := rfl

lemma collapseValues_multi (vs : List Str) (h : 1 < vs.length) :
    collapseValues vs = .strList vs := by
  match vs with
  | [] => simp at h
  | [x] => simp at h
  | x :: y :: t => rfl

/-- C5: the event built by invoke never maps Cookie or Set-Cookie in its
header mapping; every header key (other than those two) and every query key
bound to exactly one value is bound to that value as a scalar, and every
such key bound to more than one value is bound to the full value list. -/
theorem claim_C5_event_maps :
    (∀ header : Str → Option (List Str),
      reqHeaders header cookieKey = none ∧ reqHeaders header setCookieKey = none) ∧
    (∀ (header : Str → Option (List Str)) (k v : Str),
      k ≠ cookieKey → k ≠ setCookieKey → header k = some [v] →
      reqHeaders header k = some (.str v)) ∧
    (∀ (header : Str → Option (List Str)) (k : Str) (vs : List Str),
      k ≠ cookieKey → k ≠ setCookieKey → header k = some vs → 1 < vs.length →
      reqHeaders header k = some (.strList vs)) ∧
    (∀ (queryValues : Str → Option (List Str)) (k v : Str),
      queryValues k = some [v] → queryParams queryValues k = some (.str v)) ∧
    (∀ (queryValues : Str → Option (List Str)) (k : Str) (vs : List Str),
      queryValues k = some vs → 1 < vs.length →
      queryParams queryValues k = some (.strList vs)) := by
  refine ⟨?_, ?_, ?_, ?_, ?_⟩
  · intro header
    constructor <;> simp [reqHeaders]
  · intro header k v hk1 hk2 hv
    simp [reqHeaders, hk1, hk2, hv, collapseValues_singleton]
  · intro header k vs hk1 hk2 hv hlen
    simp [reqHeaders, hk1, hk2, hv, collapseValues_multi vs hlen]
  · intro queryValues k v hv
    simp [queryParams, hv, collapseValues_singleton]
  · intro queryValues k vs hv hlen
    simp [queryParams, hv, collapseValues_multi vs hlen]

/-- Witness for C5 on concrete header and query maps: a single-valued header
key A, a two-valued query key b, and the excluded Cookie key. -/
theorem claim_C5_event_maps_witness :
    reqHeaders (fun k => if k = "A".data then some ["1".data] else none) cookieKey = none ∧
    reqHeaders (fun k => if k = "A".data then some ["1".data] else none) ("A".data) =
      some (.str ("1".data)) ∧
    queryParams (fun k => if k = "b".data then some ["1".data, "2".data] else none) ("b".data) =
      some (.strList ["1".data, "2".data]) := by
  refine ⟨(claim_C5_event_maps.1 _).1, ?_, ?_⟩
  · exact claim_C5_event_maps.2.1 (fun k => if k = "A".data then some ["1".data] else none)
      ("A".data) ("1".data) (by decide) (by decide) (by decide)
  · exact claim_C5_event_maps.2.2.2.2 (fun k => if k = "b".data then some ["1".data, "2".data] else none)
      ("b".data) ["1".data, "2".data] (by decide) (by decide)

/-- C6: for every configuration and every configured worker count, a
successful Provision appends exactly one worker, with identifier 0, to the
pool; the configured count has no effect on how many workers exist. -/
theorem claim_C6_single_worker
    (fex : FunctionExecutor) (filterOk : Bool) (n : Nat) (st' : FunctionExecutor)
    (h : Provision { fex with MaxWorkersCount := n } filterOk true = some st') :
    st'.workers = fex.workers ++
      [{ ID := 0, InUse := false, Terminated := false, importComplete := false }] ∧
    st'.workers.length = fex.workers.length + 1 := by
  unfold Provision at h
  split at h
  · exact absurd h (by simp)
  · simp only [if_neg, Bool.true_eq_false, not_false_eq_true, if_false] at h
    have h2 : st'.workers = fex.workers ++
        [{ ID := 0, InUse := false, Terminated := false, importComplete := false }] := by
      cases h' : st' with
      | mk nm ep eh pe mwc wt uf ei ws =>
        rw [h'] at h
        simp at h
        exact h.2.2.2.2.2.2.2.2.symm
    exact ⟨h2, by rw [h2]; simp⟩

/-- Witness for C6: a concrete configuration asking for five workers still
provisions a pool holding the single worker 0. -/
theorem claim_C6_single_worker_witness :
    Provision { Name := "hello".data, EntrypointPath := "app/index.py".data,
                EntrypointHandler := "handler".data, PythonExecutable := "python".data,
                MaxWorkersCount := 5, WorkerTimeout := 0, URIFilter := [],
                entrypointImport := [], workers := [] } true true =
      some { Name := "hello".data, EntrypointPath := "app/index.py".data,
             EntrypointHandler := "handler".data, PythonExecutable := "python".data,
             MaxWorkersCount := 5, WorkerTimeout := 60, URIFilter := [],
             entrypointImport := "app.index".data,
             workers := [{ ID := 0, InUse := false, Terminated := false,
                           importComplete := false }] } ∧
    [({ ID := 0, InUse := false, Terminated := false, importComplete := false } : PoolW)] =
      [] ++ [{ ID := 0, InUse := false, Terminated := false, importComplete := false }] := by
  refine ⟨by decide, ?_⟩
  exact (claim_C6_single_worker
    { Name := "hello".data, EntrypointPath := "app/index.py".data,
      EntrypointHandler := "handler".data, PythonExecutable := "python".data,
      MaxWorkersCount := 0, WorkerTimeout := 0, URIFilter := [],
      entrypointImport := [], workers := [] } true 5
    { Name := "hello".data, EntrypointPath := "app/index.py".data,
      EntrypointHandler := "handler".data, PythonExecutable := "python".data,
      MaxWorkersCount := 5, WorkerTimeout := 60, URIFilter := [],
      entrypointImport := "app.index".data,
      workers := [{ ID := 0, InUse := false, Terminated := false,
                    importComplete := false }] } (by decide)).1

/-- C8: terminate leaves the terminated flag set on every path, including
the early returns for a nil command or nil process handle; when kill
succeeds, a wait outcome of signal: killed is normalized to a nil error,
while any other non-nil wait error is returned to the caller. -/
theorem claim_C8_terminate
    (w : TermWorker) :
    (terminate w).1.Terminated = true ∧
    (∀ cmd p, w.Cmd = some cmd → cmd.process = some p → p.killErr = none →
      ((p.waitErr = some killedMsg → (terminate w).2 = none) ∧
       (∀ e, p.waitErr = some e → e ≠ killedMsg → (terminate w).2 = some e))) := by
  constructor
  · rcases w with ⟨t, cmd⟩
    rcases cmd with _ | ⟨proc⟩
    · rfl
    · rcases proc with _ | ⟨p⟩
      · rfl
      · rcases hk : p.killErr with _ | e
        · rcases hw : p.waitErr with _ | e
          · simp [terminate, hk, hw]
          · by_cases he : e = killedMsg <;> simp [terminate, hk, hw, he]
        · simp [terminate, hk]
  · intro cmd p hcmd hp hkill
    constructor
    · intro hwait
      simp [terminate, hcmd, hp, hkill, hwait]
    · intro e hwait hne
      simp [terminate, hcmd, hp, hkill, hwait, hne]

/-- Witness for C8 on a concrete worker whose process waits with the
signal: killed outcome: the flag is set and the error is normalized away. -/
theorem claim_C8_terminate_witness :
    (terminate ⟨false, some ⟨some ⟨none, some killedMsg⟩⟩⟩).1.Terminated = true ∧
    (terminate ⟨false, some ⟨some ⟨none, some killedMsg⟩⟩⟩).2 = none := by
  constructor
  · exact (claim_C8_terminate ⟨false, some ⟨some ⟨none, some killedMsg⟩⟩⟩).1
  · exact ((claim_C8_terminate ⟨false, some ⟨some ⟨none, some killedMsg⟩⟩⟩).2
      ⟨some ⟨none, some killedMsg⟩⟩ ⟨none, some killedMsg⟩ rfl rfl rfl).1 rfl

/-- C10: worker.handle requires the event map to bind request_id to a
string: whenever the key is absent or bound to a non-string value and the
JSON serialization succeeds, the type assertion panics instead of any error
outcome being returned — and at that point the one-time bootstrap import
statements (on a worker that had not yet bootstrapped) are already written
to the worker's stdin, and nothing else is. -/
theorem claim_C10_request_id_panic
    (importedPath handlerName : Str) (data : Event) (importComplete : Bool)
    (stream : List StreamItem) (encodedData : Str)
    (hmarshal : jsonMarshal data = some encodedData)
    (hreq : ∀ ridStr, List.lookup requestIdKey data ≠ some (.str ridStr)) :
    (handle importedPath handlerName data importComplete stream).outcome = .panicked ∧
    (handle importedPath handlerName data importComplete stream).stdinWrites =
      (if importComplete then [] else bootstrapWrites importedPath) := by
  rcases hl : List.lookup requestIdKey data with _ | v
  · constructor <;> simp [handle, hmarshal, hl]
  · rcases v with s | vs | _
    · exact absurd hl (hreq s)
    · constructor <;> simp [handle, hmarshal, hl]
    · constructor <;> simp [handle, hmarshal, hl]

/-- Witness for C10 on a concrete event binding request_id to a string
list, handled by a fresh worker: the call panics after writing exactly the
bootstrap imports. -/
theorem claim_C10_request_id_panic_witness :
    (handle ("app.index".data) ("handler".data)
      [(requestIdKey, JVal.strList ["r1".data])] false []).outcome = .panicked ∧
    (handle ("app.index".data) ("handler".data)
      [(requestIdKey, JVal.strList ["r1".data])] false []).stdinWrites =
      bootstrapWrites ("app.index".data) := by
  have h := claim_C10_request_id_panic ("app.index".data) ("handler".data)
    [(requestIdKey, JVal.strList ["r1".data])] false []
    ("\x7b\"request_id\": [r1]\x7d".data) (by decide)
    (by intro r hr; simp [List.lookup] at hr)
  exact ⟨h.1, by rw [h.2]; rfl⟩

lemma take_length_sub_three (l : Str) :
    l.take (l.length - 3) = l.dropLast.dropLast.dropLast := by
  simp only [List.dropLast_eq_take, List.take_take, List.length_take]
  congr 1
  omega

/-- C9: the entrypoint import identifier is computed by replacing every path
separator with a dot and then removing a trailing source-file suffix when
present, and on the reference path the result is the expected dotted name. -/
theorem claim_C9_entrypoint_import :
    (∀ p : Str, computeEntrypointImport p = specImportIdent p) ∧
    computeEntrypointImport ("assets/scripts/api/hello_world/app/index.py".data) =
      "assets.scripts.api.hello_world.app.index".data := by
  constructor
  · intro p
    unfold computeEntrypointImport specImportIdent
    have hq : replaceAll p ("/".data) (".".data) =
        p.map (fun c => if c = '/' then '.' else c) := replaceAll_map p '/' '.'
    rw [hq]
    simp only [take_length_sub_three]
  · decide

lemma handle_err_none (importedPath handlerName : Str) (data : Event)
    (importComplete : Bool) (stream : List StreamItem) (s : Int) (b : Str)
    (e : Option Str)
    (h : (handle importedPath handlerName data importComplete stream).outcome = .ok s b e) :
    e = none := by
  rcases hm : jsonMarshal data with _ | enc
  · simp [handle, hm] at h
    exact h.2.2.symm
  · rcases hl : List.lookup requestIdKey data with _ | v
    · simp [handle, hm, hl] at h
    · rcases v with rid | vs | _
      · rcases hr : (readPipe endTag stream).2 with _ | _
        · simp [handle, hm, hl, hr] at h
          exact h.2.2.symm
        · simp [handle, hm, hl, hr] at h
          exact h.2.2.symm
      · simp [handle, hm, hl] at h
      · simp [handle, hm, hl] at h

lemma execWorkerLoop_err_none (importedPath handlerName : Str) (data : Event)
    (workers : List PoolW) (streams : Nat → List StreamItem) :
    ∀ fuel acc s b e,
      execWorkerLoop importedPath handlerName data workers streams fuel acc =
        some (.ok s b e) → e = none := by
  intro fuel
  induction fuel with
  | zero => intro acc s b e h; simp [execWorkerLoop] at h
  | succ n ih =>
    intro acc s b e h
    rcases hs : scanPass workers acc with w | acc'
    · rw [execWorkerLoop, hs] at h
      dsimp only at h
      have h2 := Option.some.inj h
      exact handle_err_none importedPath handlerName data w.importComplete
        (streams w.ID) s b e h2
    · rw [execWorkerLoop, hs] at h
      dsimp only at h
      by_cases hacc : acc' < 1
      · rw [if_pos hacc] at h
        have h2 := Option.some.inj h
        simp at h2
        exact h2.2.2.symm
      · rw [if_neg hacc] at h
        exact ih acc' s b e h

/-- C7: worker.handle returns a nil error on every exit path (any
entrypoint, handler name, event map, import state and output stream,
covering marshal failures, malformed status lines and timeouts), execWorker
therefore also never returns a non-nil error, and the adapter's
500-equivalent branch is bypassed for every result they produce: the
returned status and body are written verbatim. -/
theorem claim_C7_no_hard_error :
    (∀ (importedPath handlerName : Str) (data : Event) (importComplete : Bool)
       (stream : List StreamItem) (s : Int) (b : Str) (e : Option Str),
      (handle importedPath handlerName data importComplete stream).outcome = .ok s b e →
      e = none) ∧
    (∀ (importedPath handlerName : Str) (data : Event) (workers : List PoolW)
       (streams : Nat → List StreamItem) (fuel : Nat) (s : Int) (b : Str) (e : Option Str),
      execWorker importedPath handlerName data workers streams fuel = some (.ok s b e) →
      e = none) ∧
    (∀ (s : Int) (b : Str), invokeDispatchWrite s b none = (s, b)) := by
  refine ⟨handle_err_none, ?_, ?_⟩
  · intro importedPath handlerName data workers streams fuel s b e h
    exact execWorkerLoop_err_none importedPath handlerName data workers streams fuel 0 s b e h
  · intro s b
    rfl

/-- Witness for C7: the timeout exit path of handle at a concrete
invocation carries a nil error, and the adapter writes the 408 verbatim. -/
theorem claim_C7_no_hard_error_witness :
    (none : Option Str) = none ∧
    invokeDispatchWrite 408 requestTimeoutBody none = (408, requestTimeoutBody) := by
  constructor
  · exact claim_C7_no_hard_error.1 ("app.index".data) ("handler".data)
      [(requestIdKey, JVal.str ("r1".data))] false [.gap] 408 requestTimeoutBody none
      (by decide)
  · exact claim_C7_no_hard_error.2.2 408 requestTimeoutBody

end CaddyLambda

